import Mathlib

/-!
Verification development for the batched sprite renderer of the
pixel-sim-engine repository (src/src/SpriteBatch.cpp, header in
src/include; the SpriteBatch class declaration appears inside the
embedded SpriteBatch.h section of Scene.h).

Shallow embedding conventions:
* C++ `float` arithmetic is embedded as exact rational arithmetic (`ℚ`);
  geometry definitions are additionally polymorphic over a field so that
  the rotation claim can be stated over `ℝ` with `Real.cos`/`Real.sin`.
  The depth increment `0.001f` is embedded as `1/1000`.
* `bgfx::TextureHandle` is a 16-bit index; `BGFX_INVALID_HANDLE` has
  index `0xffff = 65535`, and `bgfx::isValid` tests `idx ≠ 65535`.
* The bgfx transient-vertex-buffer pool is modelled as a natural-number
  capacity `pool` that decreases when `allocTransientVertexBuffer`
  succeeds; `getAvailTransientVertexBuffer(n, layout)` returns
  `min pool n`, so the failure test `avail < n` is `pool < n`.
* `std::fprintf(stderr, ...)` diagnostics are modelled by a counter
  `stderrReports` of emitted diagnostic lines.
* Ghost observability fields (they mirror information the C++ program
  exposes only through its side effects, and affect no behaviour):
  `implicitFlushes` counts capacity-triggered flushes inside `addQuad`,
  and `depthLog` records the depth assigned to each enqueued quad.
-/

/-- Model of `bgfx::TextureHandle`: a 16-bit handle index. -/
structure BgfxTexture where
  idx : ℕ
deriving DecidableEq

/-- Model of `BGFX_INVALID_HANDLE` (`idx = UINT16_MAX`). -/
def invalidTexture : BgfxTexture := ⟨65535⟩

/-- Model of `bgfx::isValid(handle)`: the index differs from `UINT16_MAX`. -/
def bgfxIsValid (t : BgfxTexture) : Bool := t.idx ≠ 65535

/-- Model of `TextureHandle` from TextureManager.h: a bgfx handle plus pixel
dimensions (`uint16_t width, height`). -/
structure TextureHandle where
  texture : BgfxTexture
  width : ℕ
  height : ℕ
deriving DecidableEq

/-- Model of `TextureHandle::isValid()`: `bgfx::isValid(texture)`.  Note that the
pixel dimensions play no part in validity. -/
def TextureHandle.isValid (t : TextureHandle) : Bool := bgfxIsValid t.texture

/-- Model of `Color` from SpriteBatch.h: four 8-bit channels. -/
structure Color where
  r : ℕ
  g : ℕ
  b : ℕ
  a : ℕ
deriving DecidableEq

/-- Model of `Color::toABGR()`: `(a << 24) | (b << 16) | (g << 8) | r`.  The
channels are `uint8_t`, hence the byte fields occupy disjoint bit ranges
and bitwise-or equals addition. -/
def Color.toABGR (c : Color) : ℕ :=
  (c.a % 256) * 16777216 + (c.b % 256) * 65536 + (c.g % 256) * 256 + c.r % 256

/-- Model of `Color::white()`. -/
def Color.white : Color := ⟨255, 255, 255, 255⟩

/-- Model of `Rect` from SpriteBatch.h (UV region in source-image pixels),
polymorphic over the scalar field. -/
structure Rect (K : Type) where
  x : K
  y : K
  w : K
  h : K
deriving DecidableEq

/-- Model of `SpriteBatch::SpriteVertex`: position `(x,y,z)`, texture coordinate
`(u,v)`, packed ABGR color. -/
structure Vertex (K : Type) where
  x : K
  y : K
  z : K
  u : K
  v : K
  color : ℕ
deriving DecidableEq

/-- The four vertices of a queued quad, in the fixed order TL, TR, BL,
BR used throughout SpriteBatch.cpp. -/
structure Quad (K : Type) where
  tl : Vertex K
  tr : Vertex K
  bl : Vertex K
  br : Vertex K
deriving DecidableEq

/-- The four corner positions (TL, TR, BL, BR) of a quad. -/
def Quad.positions {K : Type} (q : Quad K) : List (K × K) :=
  [(q.tl.x, q.tl.y), (q.tr.x, q.tr.y), (q.bl.x, q.bl.y), (q.br.x, q.br.y)]

/-- The four UV coordinates (TL, TR, BL, BR) of a quad. -/
def Quad.uvs {K : Type} (q : Quad K) : List (K × K) :=
  [(q.tl.u, q.tl.v), (q.tr.u, q.tr.v), (q.bl.u, q.bl.v), (q.br.u, q.br.v)]

section Geometry

variable {K : Type} [Field K]

/-- Vertex construction of the unrotated sized draw
(`SpriteBatch::draw(texture, x, y, width, height, color)`,
SpriteBatch.cpp lines 148-168): full-texture UVs `(0,0)`-`(1,1)`,
corners `x0 = x`, `y0 = y`, `x1 = x + width`, `y1 = y + height`. -/
def drawQuad (x y width height depth : K) (c : ℕ) : Quad K :=
  { tl := ⟨x, y, depth, 0, 0, c⟩
    tr := ⟨x + width, y, depth, 1, 0, c⟩
    bl := ⟨x, y + height, depth, 0, 1, c⟩
    br := ⟨x + width, y + height, depth, 1, 1, c⟩ }

/-- Vertex construction of the rotated draw
(`SpriteBatch::draw(texture, x, y, width, height, rotation, originX,
originY, color)`, SpriteBatch.cpp lines 170-213).  The source computes
`cosR = cos(rotation)` and `sinR = sin(rotation)` and uses only those;
they are the `cosR`/`sinR` parameters here.  Corner offsets relative to
the origin `(ox, oy) = (width*originX, height*originY)` are rotated by
`[cosR, -sinR; sinR, cosR]` and translated by `(x + ox, y + oy)`.  UVs
are the full texture. -/
def drawRotatedQuad (x y width height cosR sinR originX originY depth : K)
    (c : ℕ) : Quad K :=
  let ox := width * originX
  let oy := height * originY
  let corner := fun (cx cy : K) =>
    (x + ox + (cx * cosR - cy * sinR), y + oy + (cx * sinR + cy * cosR))
  let p0 := corner (-ox) (-oy)
  let p1 := corner (width - ox) (-oy)
  let p2 := corner (-ox) (height - oy)
  let p3 := corner (width - ox) (height - oy)
  { tl := ⟨p0.1, p0.2, depth, 0, 0, c⟩
    tr := ⟨p1.1, p1.2, depth, 1, 0, c⟩
    bl := ⟨p2.1, p2.2, depth, 0, 1, c⟩
    br := ⟨p3.1, p3.2, depth, 1, 1, c⟩ }

/-- Vertex construction of the region draw
(`SpriteBatch::drawRegion(texture, x, y, dstWidth, dstHeight, srcRect,
color)`, SpriteBatch.cpp lines 221-247): the pixel-space source
rectangle is normalized by the texture dimensions,
`u0 = srcRect.x / texW`, `v0 = srcRect.y / texH`,
`u1 = (srcRect.x + srcRect.w) / texW`,
`v1 = (srcRect.y + srcRect.h) / texH`. -/
def drawRegionQuad (x y dstWidth dstHeight : K) (srcRect : Rect K)
    (texW texH depth : K) (c : ℕ) : Quad K :=
  let u0 := srcRect.x / texW
  let v0 := srcRect.y / texH
  let u1 := (srcRect.x + srcRect.w) / texW
  let v1 := (srcRect.y + srcRect.h) / texH
  { tl := ⟨x, y, depth, u0, v0, c⟩
    tr := ⟨x + dstWidth, y, depth, u1, v0, c⟩
    bl := ⟨x, y + dstHeight, depth, u0, v1, c⟩
    br := ⟨x + dstWidth, y + dstHeight, depth, u1, v1, c⟩ }

end Geometry

/-- Model of `SpriteBatch::Stats`: per-frame counters. -/
structure Stats where
  spriteCount : ℕ
  drawCalls : ℕ
  textureSwaps : ℕ
deriving DecidableEq

/-- Model of `SpriteBatch::SpriteItem`: a queued sprite — texture handle, four
vertices, and the depth used for sorting. -/
structure SpriteItem where
  texture : BgfxTexture
  vertices : Quad ℚ
  depth : ℚ
deriving DecidableEq

/-- One GPU submission issued by `submitBatch`: the bound texture and
the transient-buffer vertex contents. -/
structure Submission where
  texture : BgfxTexture
  verts : List (Vertex ℚ)
deriving DecidableEq

/-- The quad-to-triangle expansion done in the flush walk
(SpriteBatch.cpp lines 391-400): triangle 1 = TL,TR,BL and
triangle 2 = TR,BR,BL. -/
def quadTriangles (q : Quad ℚ) : List (Vertex ℚ) :=
  [q.tl, q.tr, q.bl, q.tr, q.br, q.bl]

/-- The mutable state of `SpriteBatch::flush` together with the backend
state it touches: the texture cursor and vertex accumulation buffer
(locals of `flush`), the remaining transient-vertex pool, the stats, the
log of issued submissions, and the diagnostic counter. -/
structure FlushState where
  currentTexture : BgfxTexture
  batchVerts : List (Vertex ℚ)
  pool : ℕ
  stats : Stats
  submissions : List Submission
  stderrReports : ℕ
deriving DecidableEq

/-- The `submitBatch` lambda of `SpriteBatch::flush` (SpriteBatch.cpp
lines 343-381): skip when the buffer is empty or the texture cursor is
invalid; if the transient pool cannot supply the buffered vertex count,
report to stderr and return (note the buffer is NOT cleared on this
path); otherwise allocate from the pool, submit, count the draw call,
and clear the buffer. -/
def submitBatch (s : FlushState) : FlushState :=
  if s.batchVerts.isEmpty || !bgfxIsValid s.currentTexture then s
  else if s.pool < s.batchVerts.length then
    { s with stderrReports := s.stderrReports + 1 }
  else
    { s with
      pool := s.pool - s.batchVerts.length
      submissions := s.submissions ++ [⟨s.currentTexture, s.batchVerts⟩]
      stats := { s.stats with drawCalls := s.stats.drawCalls + 1 }
      batchVerts := [] }

/-- One iteration of the flush walk (SpriteBatch.cpp lines 383-403):
when the texture of the sprite differs from the cursor, submit the
accumulated batch, move the cursor, and count a texture swap; then
append the six triangle vertices of the sprite and count it. -/
def flushStep (s : FlushState) (item : SpriteItem) : FlushState :=
  let s1 :=
    if item.texture.idx ≠ s.currentTexture.idx then
      let s2 := submitBatch s
      { s2 with
        currentTexture := item.texture
        stats := { s2.stats with textureSwaps := s2.stats.textureSwaps + 1 } }
    else s
  { s1 with
    batchVerts := s1.batchVerts ++ quadTriangles item.vertices
    stats := { s1.stats with spriteCount := s1.stats.spriteCount + 1 } }

/-- The `std::stable_sort` by `a.depth < b.depth` at the top of
`SpriteBatch::flush` (SpriteBatch.cpp lines 332-335), embedded as the
stable insertion sort with respect to the corresponding non-strict
order. -/
def sortByDepth (l : List SpriteItem) : List SpriteItem :=
  List.insertionSort (fun a b => a.depth ≤ b.depth) l

/-- The whole state of a `SpriteBatch` object (SpriteBatch.h members)
plus the backend state it interacts with (`pool`, `submissions`) and the
ghost observability fields described at the top of the file. -/
structure Engine where
  begun : Bool
  viewId : ℕ
  screenW : ℕ
  screenH : ℕ
  sprites : List SpriteItem
  maxSprites : ℕ
  currentDepth : ℚ
  stats : Stats
  pool : ℕ
  submissions : List Submission
  stderrReports : ℕ
  implicitFlushes : ℕ
  depthLog : List ℚ
deriving DecidableEq

/-- The state right after a successful `init(vs, fs, maxSprites)` on a
default-constructed `SpriteBatch`, in a frame whose transient pool holds
`pool` vertices. -/
def initEngine (maxSprites pool : ℕ) : Engine :=
  { begun := false, viewId := 0, screenW := 0, screenH := 0
    sprites := [], maxSprites := maxSprites, currentDepth := 0
    stats := ⟨0, 0, 0⟩, pool := pool, submissions := []
    stderrReports := 0, implicitFlushes := 0, depthLog := [] }

/-- Model of `SpriteBatch::flush` (SpriteBatch.cpp lines 325-409): return early
on an empty queue; otherwise stable-sort by depth, run the walk from an
invalid texture cursor and empty buffer, submit the remainder, and clear
the queue. -/
def Engine.flush (e : Engine) : Engine :=
  if e.sprites.isEmpty then e
  else
    let fin := submitBatch ((sortByDepth e.sprites).foldl flushStep
      { currentTexture := invalidTexture, batchVerts := [], pool := e.pool
        stats := e.stats, submissions := e.submissions
        stderrReports := e.stderrReports })
    { e with
      sprites := []
      pool := fin.pool
      stats := fin.stats
      submissions := fin.submissions
      stderrReports := fin.stderrReports }

/-- Model of `SpriteBatch::addQuad` (SpriteBatch.cpp lines 299-313): flush first
if the queue is at capacity (`m_sprites.size() >= m_maxSprites`), append
the item, and advance the depth cursor by `0.001f`.  The ghost fields
record the implicit flush and the assigned depth. -/
def Engine.addQuad (e : Engine) (texture : BgfxTexture) (q : Quad ℚ)
    (depth : ℚ) : Engine :=
  let e1 :=
    if e.maxSprites ≤ e.sprites.length then
      let ef := e.flush
      { ef with implicitFlushes := ef.implicitFlushes + 1 }
    else e
  { e1 with
    sprites := e1.sprites ++ [⟨texture, q, depth⟩]
    currentDepth := e1.currentDepth + 1 / 1000
    depthLog := e1.depthLog ++ [depth] }

/-- Model of `SpriteBatch::begin` (SpriteBatch.cpp lines 108-141): calling it
while already begun prints a diagnostic and returns; otherwise it opens
the session, records the view and target size, clears the queue, resets
the depth cursor and the stats, and sets the view transform (external
effect, not modelled).  The ghost fields are frame-scoped and reset with
the stats. -/
def Engine.begin (e : Engine) (viewId screenW screenH : ℕ) : Engine :=
  if e.begun then { e with stderrReports := e.stderrReports + 1 }
  else
    { e with
      begun := true, viewId := viewId, screenW := screenW
      screenH := screenH, sprites := [], currentDepth := 0
      stats := ⟨0, 0, 0⟩, implicitFlushes := 0, depthLog := [] }

/-- Model of `SpriteBatch::end` (SpriteBatch.cpp lines 315-323): calling it while
not begun prints a diagnostic and returns; otherwise flush once and
close the session.  (`end` is a Lean keyword, hence the name.) -/
def Engine.endFrame (e : Engine) : Engine :=
  if !e.begun then { e with stderrReports := e.stderrReports + 1 }
  else { e.flush with begun := false }

/-- Model of `SpriteBatch::draw(texture, x, y, width, height, color)`
(SpriteBatch.cpp lines 148-168): the only guard is
`texture.isValid()`; the quad is built with full-texture UVs at the
current depth and enqueued.  Note there is no `m_begun` check and no
check of the pixel dimensions. -/
def Engine.drawSized (e : Engine) (t : TextureHandle) (x y width height : ℚ)
    (color : Color) : Engine :=
  if !t.isValid then e
  else e.addQuad t.texture
    (drawQuad x y width height e.currentDepth color.toABGR) e.currentDepth

/-- Model of `SpriteBatch::draw(texture, x, y, color)` (SpriteBatch.cpp lines
143-146): delegates to the sized overload with the native pixel size
of the texture. -/
def Engine.draw (e : Engine) (t : TextureHandle) (x y : ℚ)
    (color : Color) : Engine :=
  if !t.isValid then e
  else e.drawSized t x y (t.width : ℚ) (t.height : ℚ) color

/-- Model of `SpriteBatch::draw(texture, x, y, width, height, rotation, originX,
originY, color)` (SpriteBatch.cpp lines 170-213); `cosR`/`sinR` stand
for the `cos(rotation)`/`sin(rotation)` locals. -/
def Engine.drawRotated (e : Engine) (t : TextureHandle)
    (x y width height cosR sinR originX originY : ℚ) (color : Color) :
    Engine :=
  if !t.isValid then e
  else e.addQuad t.texture
    (drawRotatedQuad x y width height cosR sinR originX originY
      e.currentDepth color.toABGR) e.currentDepth

/-- Model of `SpriteBatch::drawRegion(texture, x, y, dstWidth, dstHeight,
srcRect, color)` (SpriteBatch.cpp lines 221-247). -/
def Engine.drawRegion (e : Engine) (t : TextureHandle)
    (x y dstWidth dstHeight : ℚ) (srcRect : Rect ℚ) (color : Color) :
    Engine :=
  if !t.isValid then e
  else e.addQuad t.texture
    (drawRegionQuad x y dstWidth dstHeight srcRect (t.width : ℚ)
      (t.height : ℚ) e.currentDepth color.toABGR) e.currentDepth

/-- Model of `SpriteBatch::drawRegion(texture, x, y, srcRect, color)`
(SpriteBatch.cpp lines 215-219): delegates with the size of the region itself as
destination size. -/
def Engine.drawRegionXY (e : Engine) (t : TextureHandle) (x y : ℚ)
    (srcRect : Rect ℚ) (color : Color) : Engine :=
  if !t.isValid then e
  else e.drawRegion t x y srcRect.w srcRect.h srcRect color

/-- One public operation on the sprite batch, for quantifying over call
sequences. -/
inductive Cmd where
  | begin (viewId screenW screenH : ℕ)
  | draw (t : TextureHandle) (x y : ℚ) (color : Color)
  | drawSized (t : TextureHandle) (x y width height : ℚ) (color : Color)
  | drawRotated (t : TextureHandle)
      (x y width height cosR sinR originX originY : ℚ) (color : Color)
  | drawRegion (t : TextureHandle) (x y dstWidth dstHeight : ℚ)
      (srcRect : Rect ℚ) (color : Color)
  | drawRegionXY (t : TextureHandle) (x y : ℚ) (srcRect : Rect ℚ)
      (color : Color)
  | endFrame

/-- Dispatch one operation. -/
def Engine.step (e : Engine) : Cmd → Engine
  | .begin v w h => e.begin v w h
  | .draw t x y c => e.draw t x y c
  | .drawSized t x y w h c => e.drawSized t x y w h c
  | .drawRotated t x y w h cr sr ox oy c => e.drawRotated t x y w h cr sr ox oy c
  | .drawRegion t x y dw dh src c => e.drawRegion t x y dw dh src c
  | .drawRegionXY t x y src c => e.drawRegionXY t x y src c
  | .endFrame => e.endFrame

/-- Run a sequence of operations. -/
def Engine.run (e : Engine) (cs : List Cmd) : Engine :=
  cs.foldl Engine.step e

/-- An operation that is a draw-family call with a valid texture handle
(such a call always enqueues exactly one quad). -/
def Cmd.isValidDraw : Cmd → Bool
  | .draw t _ _ _ => t.isValid
  | .drawSized t _ _ _ _ _ => t.isValid
  | .drawRotated t _ _ _ _ _ _ _ _ _ => t.isValid
  | .drawRegion t _ _ _ _ _ _ => t.isValid
  | .drawRegionXY t _ _ _ _ => t.isValid
  | _ => false

/-- Concrete image X of the X,Y,X scenario in the spec: a valid 16×16
texture. -/
def texX : TextureHandle := ⟨⟨1⟩, 16, 16⟩

/-- Concrete image Y of the X,Y,X scenario in the spec: a valid 16×16
texture. -/
def texY : TextureHandle := ⟨⟨2⟩, 16, 16⟩

/-- The frame of claim C2: `begin`, draw X, draw Y, draw X, `end`, with
an ample transient pool. -/
def frameXYX : Engine :=
  (((((initEngine 8192 1000).begin 0 640 360).drawSized texX 0 0 16 16
        Color.white).drawSized texY 0 0 16 16
      Color.white).drawSized texX 0 0 16 16 Color.white).endFrame

/-- A `SpriteBatch` that has been initialized but has no open session
(`m_begun == false`). -/
def closedEngine : Engine := initEngine 8192 1000

/-- The same batch right after `begin`. -/
def openEngine : Engine := closedEngine.begin 0 640 360

/-- A texture whose bgfx handle is valid but whose pixel size is 0×0. -/
def texZeroSize : TextureHandle := ⟨⟨3⟩, 0, 0⟩

/-- A zero-area source region. -/
def zeroRect : Rect ℚ := ⟨0, 0, 0, 0⟩

/-- A batch initialized with the degenerate capacity `maxSprites = 0`,
with a session open. -/
def tinyEngine : Engine := (initEngine 0 1000).begin 0 640 360

/-- A capacity-2 batch running a five-draw frame (no `end`), used as the
C10 witness input. -/
def capTwoRun : Engine :=
  ((initEngine 2 1000).begin 0 640 360).run
    (List.replicate 5 (Cmd.drawSized texX 0 0 1 1 Color.white))

/-- The depth-assignment invariant maintained within a frame: the
depths assigned so far strictly increase in assignment order and all lie
strictly below the current depth cursor. -/
def DepthInv (e : Engine) : Prop :=
  e.depthLog.Pairwise (· < ·) ∧ ∀ d ∈ e.depthLog, d < e.currentDepth

/-- The per-frame accounting invariant after `k` valid draw calls on a
batch of capacity `M`: `spriteCount` plus the queue length equals `k`;
for `k ≥ 1` the draw count decomposes as `k = q·M + r` with `1 ≤ r ≤ M`,
the queue holds exactly `r` items, and exactly `q` implicit flushes have
happened. -/
def FrameAcct (e : Engine) (M k : ℕ) : Prop :=
  e.maxSprites = M ∧
  e.stats.spriteCount + e.sprites.length = k ∧
  (k = 0 → e.sprites.length = 0 ∧ e.implicitFlushes = 0) ∧
  (1 ≤ k → ∃ q r, k = q * M + r ∧ 1 ≤ r ∧ r ≤ M ∧
      e.sprites.length = r ∧ e.implicitFlushes = q)

/-- A begun batch with two quads queued through the draw path (depths
`0` and `1/1000`, distinct valid textures). -/
def twoQuadEngine : Engine :=
  (openEngine.drawSized texX 0 0 1 1 Color.white).drawSized texY 2 2 1 1
    Color.white

/-- The vertex stream of a submission list, concatenated in submission
order. -/
def submissionStream (subs : List Submission) : List (Vertex ℚ) :=
  (subs.map Submission.verts).flatten

/-- The triangle stream of a sprite list, in list order (six vertices
per quad). -/
def triangleStream (items : List SpriteItem) : List (Vertex ℚ) :=
  (items.map (fun i => quadTriangles i.vertices)).flatten

/-- A flush state mid-walk whose pending six-vertex batch exceeds the
three vertices left in the transient pool. -/
def starvedFlushState : FlushState :=
  { currentTexture := ⟨1⟩
    batchVerts := List.replicate 6 ⟨0, 0, 0, 0, 0, 0⟩
    pool := 3, stats := ⟨1, 0, 1⟩, submissions := [], stderrReports := 0 }

/-- A sprite walked after the overflow in the C6 witness. -/
def lateSprite : SpriteItem :=
  ⟨⟨2⟩, drawQuad 0 0 1 1 (1 / 1000) 0, 1 / 1000⟩
/-- C7: For every position, size, and normalized origin, the rotated
draw path called with rotation angle θ = 0 — whose `cosR`/`sinR` locals
are `cos 0` and `sin 0` — produces exactly the same four corner
positions (TL, TR, BL, BR) as the unrotated-quad path with the same
position and size. -/
theorem c7_rotation_zero_matches_unrotated
    (x y width height originX originY depth : ℝ) (c : ℕ) :
    (drawRotatedQuad x y width height (Real.cos 0) (Real.sin 0)
        originX originY depth c).positions
      = (drawQuad x y width height depth c).positions := by
  simp only [drawRotatedQuad, drawQuad, Quad.positions, Real.cos_zero,
    Real.sin_zero]
  norm_num

/-- C8: a full-image draw produces UVs `(0,0)`-`(1,1)` exactly, and a
region draw with region `(rx,ry,rw,rh)` on an image of pixel size
`(W,H)` produces UVs `(rx/W, ry/H)` at TL through
`((rx+rw)/W, (ry+rh)/H)` at BR. -/
theorem c8_uv_normalization (x y w h rx ry rw rh depth : ℚ) (W H : ℕ)
    (hW : 0 < W) (hH : 0 < H) (c : ℕ) :
    (drawQuad x y w h depth c).uvs = [(0, 0), (1, 0), (0, 1), (1, 1)] ∧
    (drawRegionQuad x y w h ⟨rx, ry, rw, rh⟩ (W : ℚ) (H : ℚ) depth c).uvs
      = [(rx / W, ry / H), ((rx + rw) / W, ry / H),
         (rx / W, (ry + rh) / H), ((rx + rw) / W, (ry + rh) / H)] := by
  refine ⟨?_, ?_⟩ <;> simp [drawQuad, drawRegionQuad, Quad.uvs]

/-- Witness for C8 at a concrete input: image 4×2, region (1,1,2,1). -/
theorem c8_uv_normalization_witness :
    (drawQuad (0 : ℚ) 0 8 8 0 0).uvs = [(0, 0), (1, 0), (0, 1), (1, 1)] ∧
    (drawRegionQuad (0 : ℚ) 0 8 8 ⟨1, 1, 2, 1⟩ ((4 : ℕ) : ℚ) ((2 : ℕ) : ℚ) 0 0).uvs
      = [((1 : ℚ) / (4 : ℕ), (1 : ℚ) / (2 : ℕ)),
         (((1 : ℚ) + 2) / (4 : ℕ), (1 : ℚ) / (2 : ℕ)),
         ((1 : ℚ) / (4 : ℕ), ((1 : ℚ) + 1) / (2 : ℕ)),
         (((1 : ℚ) + 2) / (4 : ℕ), ((1 : ℚ) + 1) / (2 : ℕ))] :=
  c8_uv_normalization 0 0 8 8 1 1 2 1 0 4 2 (by decide) (by decide) 0

/-- C2 counterexample: in the X,Y,X frame the code reports THREE
texture swaps, not two — `flush` starts its cursor at
`BGFX_INVALID_HANDLE`, so the very first sprite already differs from the
cursor and increments `m_stats.textureSwaps` (SpriteBatch.cpp lines
383-389).  The claimed image-switch count of 2 is therefore wrong. -/
theorem c2_counterexample :
    frameXYX.stats.textureSwaps = 3 ∧ frameXYX.stats.textureSwaps ≠ 2 :=
  of_decide_eq_true (by with_unfolding_all rfl)

/-- C2 amended: the X,Y,X frame produces a submission count
(`drawCalls`) of 3 and an image-switch count (`textureSwaps`) of 3 (the
counter also counts the initial cursor change away from the invalid
handle); the two X quads are never merged into one submission bypassing
the Y quad — the three submissions bind X, then Y, then X. -/
theorem c2_amended :
    frameXYX.stats.drawCalls = 3 ∧ frameXYX.stats.textureSwaps = 3 ∧
    frameXYX.submissions.map Submission.texture
      = [texX.texture, texY.texture, texX.texture] :=
  of_decide_eq_true (by with_unfolding_all rfl)

/-- The `flush` of a batch always leaves the queue empty (it either returns early on an
already-empty queue or clears it). -/
theorem flush_sprites_nil (e : Engine) : e.flush.sprites = [] := by
  unfold Engine.flush
  split
  · next h => simpa [List.isEmpty_iff] using h
  · rfl

/-- The `flush` of a batch does not touch the session flag, the capacity, the depth
cursor, or the ghost frame logs. -/
theorem flush_keeps_fields (e : Engine) :
    e.flush.begun = e.begun ∧ e.flush.maxSprites = e.maxSprites ∧
    e.flush.currentDepth = e.currentDepth ∧
    e.flush.depthLog = e.depthLog ∧
    e.flush.implicitFlushes = e.implicitFlushes := by
  unfold Engine.flush
  split <;> simp

/-- The flush walk adds the number of flushed sprites to `spriteCount`: the
walk increments the counter once per item, and neither sorting nor
`submitBatch` changes the item count. -/
theorem flushFold_spriteCount (items : List SpriteItem) (s : FlushState) :
    (items.foldl flushStep s).stats.spriteCount
      = s.stats.spriteCount + items.length := by
  induction items generalizing s with
  | nil => simp
  | cons i rest ih =>
      rw [List.foldl_cons, ih]
      have hstep : (flushStep s i).stats.spriteCount
          = s.stats.spriteCount + 1 := by
        unfold flushStep submitBatch
        split_ifs <;> simp
      rw [hstep, List.length_cons]
      omega

/-- The `submitBatch` helper does not change `spriteCount`. -/
theorem submitBatch_spriteCount (s : FlushState) :
    (submitBatch s).stats.spriteCount = s.stats.spriteCount := by
  unfold submitBatch
  split <;> (try split) <;> simp

/-- Accounting of `Engine.flush` for `spriteCount`: the counter grows by
exactly the number of queued sprites. -/
theorem flush_spriteCount (e : Engine) :
    e.flush.stats.spriteCount = e.stats.spriteCount + e.sprites.length := by
  unfold Engine.flush
  split
  · next h =>
      have : e.sprites = [] := by simpa [List.isEmpty_iff] using h
      simp [this]
  · next h =>
      simp only [submitBatch_spriteCount, flushFold_spriteCount]
      simp [sortByDepth, List.length_insertionSort]

/-- Effect of `addQuad` on the queue length: implicit flush when at
capacity, then one append. -/
theorem addQuad_length (e : Engine) (tex : BgfxTexture) (q : Quad ℚ)
    (d : ℚ) :
    (e.addQuad tex q d).sprites.length
      = if e.maxSprites ≤ e.sprites.length then 1
        else e.sprites.length + 1 := by
  unfold Engine.addQuad
  split
  · simp [flush_sprites_nil]
  · simp

/-- The `addQuad` operation always advances the depth cursor by exactly `1/1000` and
appends the assigned depth to the ghost log. -/
theorem addQuad_depth (e : Engine) (tex : BgfxTexture) (q : Quad ℚ)
    (d : ℚ) :
    (e.addQuad tex q d).currentDepth = e.currentDepth + 1 / 1000 ∧
    (e.addQuad tex q d).depthLog = e.depthLog ++ [d] := by
  unfold Engine.addQuad
  split
  · simp [(flush_keeps_fields e).2.2.1, (flush_keeps_fields e).2.2.2.1]
  · simp

/-- The `addQuad` operation preserves the session flag and the capacity. -/
theorem addQuad_keeps (e : Engine) (tex : BgfxTexture) (q : Quad ℚ)
    (d : ℚ) :
    (e.addQuad tex q d).begun = e.begun ∧
    (e.addQuad tex q d).maxSprites = e.maxSprites := by
  unfold Engine.addQuad
  split
  · simp [(flush_keeps_fields e).1, (flush_keeps_fields e).2.1]
  · simp

/-- Every draw-family operation with a valid texture handle reduces to a
single `addQuad` of some quad at the current depth. -/
theorem step_of_valid_draw (e : Engine) (c : Cmd)
    (h : c.isValidDraw = true) :
    ∃ tex q, e.step c = e.addQuad tex q e.currentDepth := by
  cases c <;> simp_all [Cmd.isValidDraw, Engine.step, Engine.draw,
    Engine.drawSized, Engine.drawRotated, Engine.drawRegion,
    Engine.drawRegionXY] <;> exact ⟨_, _, rfl⟩

/-- Below capacity, `addQuad` is exactly an append plus the depth
advance. -/
theorem addQuad_below_capacity (e : Engine) (tex : BgfxTexture)
    (q : Quad ℚ) (d : ℚ) (h : e.sprites.length < e.maxSprites) :
    e.addQuad tex q d
      = { e with
          sprites := e.sprites ++ [⟨tex, q, d⟩]
          currentDepth := e.currentDepth + 1 / 1000
          depthLog := e.depthLog ++ [d] } := by
  unfold Engine.addQuad
  rw [if_neg (Nat.not_le.mpr h)]

/-- C4 counterexample: a `draw` call issued while the session is Closed
is NOT a no-op and is NOT reported — none of the draw paths consult
`m_begun` (SpriteBatch.cpp lines 143-297), so the call enqueues a quad
(queue length becomes 1) and emits no diagnostic. -/
theorem c4_counterexample :
    closedEngine.begun = false ∧
    (closedEngine.drawSized texX 0 0 16 16 Color.white).sprites.length = 1 ∧
    (closedEngine.drawSized texX 0 0 16 16 Color.white).stderrReports
      = closedEngine.stderrReports :=
  of_decide_eq_true (by with_unfolding_all rfl)

/-- C4 amended: `begin` while Open and `end` while Closed are each
reported via a diagnostic and are otherwise no-ops (queue, depth
counter, stats, and session flag unchanged); but a draw issued while
Closed is NOT detected: with a valid texture (and the queue below
capacity) it enqueues a quad exactly as in an open session and emits no
diagnostic. -/
theorem c4_amended (e1 e2 e3 : Engine) (v w h : ℕ) (t : TextureHandle)
    (x y width height : ℚ) (col : Color)
    (h1 : e1.begun = true) (h2 : e2.begun = false) (h3 : e3.begun = false)
    (hv : t.isValid = true) (hcap : e3.sprites.length < e3.maxSprites) :
    Engine.begin e1 v w h
        = { e1 with stderrReports := e1.stderrReports + 1 } ∧
    Engine.endFrame e2
        = { e2 with stderrReports := e2.stderrReports + 1 } ∧
    (e3.drawSized t x y width height col).sprites.length
        = e3.sprites.length + 1 ∧
    (e3.drawSized t x y width height col).stderrReports
        = e3.stderrReports := by
  refine ⟨?_, ?_, ?_, ?_⟩
  · simp [Engine.begin, h1]
  · simp [Engine.endFrame, h2]
  · simp [Engine.drawSized, hv, addQuad_below_capacity _ _ _ _ hcap]
  · simp [Engine.drawSized, hv, addQuad_below_capacity _ _ _ _ hcap]

/-- Witness for C4 amended at concrete states. -/
theorem c4_amended_witness :
    Engine.begin openEngine 0 640 360
        = { openEngine with stderrReports := openEngine.stderrReports + 1 } ∧
    Engine.endFrame closedEngine
        = { closedEngine with
            stderrReports := closedEngine.stderrReports + 1 } ∧
    (closedEngine.drawSized texX 0 0 16 16 Color.white).sprites.length
        = closedEngine.sprites.length + 1 ∧
    (closedEngine.drawSized texX 0 0 16 16 Color.white).stderrReports
        = closedEngine.stderrReports :=
  c4_amended openEngine closedEngine closedEngine 0 640 360 texX 0 0 16 16
    Color.white rfl rfl rfl rfl (by decide)

/-- C5 counterexample: drawing an image of zero pixel width and height
(with a valid handle) does NOT leave the queue unchanged — the only
guard in the draw paths is `texture.isValid()`, which ignores the
dimensions, so a degenerate quad is enqueued and the depth counter
advances. -/
theorem c5_counterexample :
    texZeroSize.isValid = true ∧ texZeroSize.width = 0 ∧
    (openEngine.draw texZeroSize 5 5 Color.white).sprites.length = 1 ∧
    (openEngine.draw texZeroSize 5 5 Color.white).currentDepth
      ≠ openEngine.currentDepth :=
  of_decide_eq_true (by with_unfolding_all rfl)

/-- C5 amended: only an invalid image handle makes a draw a silent
no-op.  A zero-size image or a zero-area source region is not detected:
the call still enqueues one (degenerate) quad and advances the depth
counter by `1/1000`.  No failure is reported in either case (the
operations are total and never raise). -/
theorem c5_amended (e : Engine) (t tInv : TextureHandle) (x y : ℚ)
    (src : Rect ℚ) (col : Color)
    (hv : t.isValid = true) (hw : t.width = 0) (hsw : src.w = 0)
    (hcap : e.sprites.length < e.maxSprites)
    (hinv : tInv.isValid = false) :
    (e.draw t x y col).sprites.length = e.sprites.length + 1 ∧
    (e.draw t x y col).currentDepth = e.currentDepth + 1 / 1000 ∧
    (e.drawRegionXY t x y src col).sprites.length
        = e.sprites.length + 1 ∧
    e.draw tInv x y col = e ∧
    e.drawRegionXY tInv x y src col = e := by
  refine ⟨?_, ?_, ?_, ?_, ?_⟩
  · simp [Engine.draw, Engine.drawSized, hv,
      addQuad_below_capacity _ _ _ _ hcap]
  · simp [Engine.draw, Engine.drawSized, hv,
      addQuad_below_capacity _ _ _ _ hcap]
  · simp [Engine.drawRegionXY, Engine.drawRegion, hv,
      addQuad_below_capacity _ _ _ _ hcap]
  · simp [Engine.draw, hinv]
  · simp [Engine.drawRegionXY, hinv]

/-- Witness for C5 amended: the 0×0-image and zero-area-region draws on
a freshly opened batch. -/
theorem c5_amended_witness :
    (openEngine.draw texZeroSize 5 5 Color.white).sprites.length
        = openEngine.sprites.length + 1 ∧
    (openEngine.draw texZeroSize 5 5 Color.white).currentDepth
        = openEngine.currentDepth + 1 / 1000 ∧
    (openEngine.drawRegionXY texZeroSize 5 5 zeroRect
        Color.white).sprites.length = openEngine.sprites.length + 1 ∧
    openEngine.draw ⟨invalidTexture, 16, 16⟩ 5 5 Color.white = openEngine ∧
    openEngine.drawRegionXY ⟨invalidTexture, 16, 16⟩ 5 5 zeroRect
        Color.white = openEngine :=
  c5_amended openEngine texZeroSize ⟨invalidTexture, 16, 16⟩ 5 5 zeroRect
    Color.white rfl rfl rfl (by decide) rfl

/-- C10 counterexample: with the configured capacity `maxSprites = 0`
the queue still reaches length 1 after a single valid draw — `addQuad`
flushes when `size() >= m_maxSprites` but then unconditionally appends,
so the queue holds more items than the configured capacity. -/
theorem c10_counterexample :
    tinyEngine.maxSprites = 0 ∧
    ¬ ((tinyEngine.drawSized texX 0 0 1 1 Color.white).sprites.length
        ≤ tinyEngine.maxSprites) :=
  of_decide_eq_true (by with_unfolding_all rfl)

/-- One operation keeps the queue length within `max 1 maxSprites` and
never changes the capacity. -/
theorem step_length_bound (e : Engine) (c : Cmd)
    (h : e.sprites.length ≤ max 1 e.maxSprites) :
    (e.step c).sprites.length ≤ max 1 e.maxSprites ∧
    (e.step c).maxSprites = e.maxSprites := by
  have haddQ : ∀ (tex : BgfxTexture) (q : Quad ℚ) (d : ℚ),
      (e.addQuad tex q d).sprites.length ≤ max 1 e.maxSprites ∧
      (e.addQuad tex q d).maxSprites = e.maxSprites := by
    intro tex q d
    refine ⟨?_, (addQuad_keeps e tex q d).2⟩
    rw [addQuad_length]
    split
    · exact Nat.le_max_left 1 e.maxSprites
    · next hlt =>
        exact le_trans (Nat.succ_le_of_lt (Nat.lt_of_not_le hlt))
          (Nat.le_max_right 1 e.maxSprites)
  cases c with
  | begin v w hh =>
      simp only [Engine.step, Engine.begin]
      split
      · exact ⟨h, rfl⟩
      · exact ⟨by simp, rfl⟩
  | draw t x y col =>
      by_cases hv : t.isValid = true
      · obtain ⟨tex, q, hq⟩ := step_of_valid_draw e (Cmd.draw t x y col)
          (by simpa [Cmd.isValidDraw] using hv)
        rw [hq]; exact haddQ _ _ _
      · have hv' : t.isValid = false := by simpa using hv
        have hstep : e.step (Cmd.draw t x y col) = e := by
          simp [Engine.step, Engine.draw, hv']
        rw [hstep]; exact ⟨h, rfl⟩
  | drawSized t x y w hh col =>
      by_cases hv : t.isValid = true
      · obtain ⟨tex, q, hq⟩ := step_of_valid_draw e
          (Cmd.drawSized t x y w hh col) (by simpa [Cmd.isValidDraw] using hv)
        rw [hq]; exact haddQ _ _ _
      · have hv' : t.isValid = false := by simpa using hv
        have hstep : e.step (Cmd.drawSized t x y w hh col) = e := by
          simp [Engine.step, Engine.drawSized, hv']
        rw [hstep]; exact ⟨h, rfl⟩
  | drawRotated t x y w hh cr sr ox oy col =>
      by_cases hv : t.isValid = true
      · obtain ⟨tex, q, hq⟩ := step_of_valid_draw e
          (Cmd.drawRotated t x y w hh cr sr ox oy col)
          (by simpa [Cmd.isValidDraw] using hv)
        rw [hq]; exact haddQ _ _ _
      · have hv' : t.isValid = false := by simpa using hv
        have hstep : e.step (Cmd.drawRotated t x y w hh cr sr ox oy col)
            = e := by
          simp [Engine.step, Engine.drawRotated, hv']
        rw [hstep]; exact ⟨h, rfl⟩
  | drawRegion t x y dw dh src col =>
      by_cases hv : t.isValid = true
      · obtain ⟨tex, q, hq⟩ := step_of_valid_draw e
          (Cmd.drawRegion t x y dw dh src col)
          (by simpa [Cmd.isValidDraw] using hv)
        rw [hq]; exact haddQ _ _ _
      · have hv' : t.isValid = false := by simpa using hv
        have hstep : e.step (Cmd.drawRegion t x y dw dh src col) = e := by
          simp [Engine.step, Engine.drawRegion, hv']
        rw [hstep]; exact ⟨h, rfl⟩
  | drawRegionXY t x y src col =>
      by_cases hv : t.isValid = true
      · obtain ⟨tex, q, hq⟩ := step_of_valid_draw e
          (Cmd.drawRegionXY t x y src col)
          (by simpa [Cmd.isValidDraw] using hv)
        rw [hq]; exact haddQ _ _ _
      · have hv' : t.isValid = false := by simpa using hv
        have hstep : e.step (Cmd.drawRegionXY t x y src col) = e := by
          simp [Engine.step, Engine.drawRegionXY, hv']
        rw [hstep]; exact ⟨h, rfl⟩
  | endFrame =>
      simp only [Engine.step, Engine.endFrame]
      split
      · exact ⟨h, rfl⟩
      · refine ⟨?_, ?_⟩ <;>
          simp [flush_sprites_nil, (flush_keeps_fields e).2.1]

/-- C10 amended: for every sequence of operations, the internal sprite
queue never holds more than `max 1 maxSprites` items between operations
(when `maxSprites ≥ 1` this is the configured capacity; with the
degenerate configuration `maxSprites = 0` the bound is 1, as the
counterexample shows), and after any flush the queue is empty. -/
theorem c10_amended (e : Engine) (cs : List Cmd)
    (h : e.sprites.length ≤ max 1 e.maxSprites) :
    (e.run cs).sprites.length ≤ max 1 e.maxSprites ∧
    (e.run cs).maxSprites = e.maxSprites ∧
    (e.run cs).flush.sprites = [] := by
  induction cs generalizing e with
  | nil => exact ⟨h, rfl, flush_sprites_nil _⟩
  | cons c rest ih =>
      have hb := step_length_bound e c h
      have hrest := ih (e.step c) (by rw [hb.2]; exact hb.1)
      have hrun : e.run (c :: rest) = (e.step c).run rest := rfl
      rw [hrun, ← hb.2]
      exact ⟨hrest.1, hrest.2.1, hrest.2.2⟩

/-- Witness for C10 amended at the capacity-2 five-draw frame. -/
theorem c10_amended_witness :
    capTwoRun.sprites.length
        ≤ max 1 ((initEngine 2 1000).begin 0 640 360).maxSprites ∧
    capTwoRun.maxSprites
        = ((initEngine 2 1000).begin 0 640 360).maxSprites ∧
    capTwoRun.flush.sprites = [] :=
  c10_amended ((initEngine 2 1000).begin 0 640 360)
    (List.replicate 5 (Cmd.drawSized texX 0 0 1 1 Color.white))
    (by decide)

/-- The predicate `DepthInv` only depends on the depth log and the depth cursor. -/
theorem depthInv_congr {e e' : Engine} (hl : e'.depthLog = e.depthLog)
    (hd : e'.currentDepth = e.currentDepth) (h : DepthInv e) :
    DepthInv e' := by
  rw [DepthInv, hl, hd]; exact h

/-- Enqueuing at the current depth preserves the depth invariant: the
new entry is above everything logged, and the cursor advances past it. -/
theorem addQuad_depthInv (e : Engine) (tex : BgfxTexture) (q : Quad ℚ)
    (hinv : DepthInv e) : DepthInv (e.addQuad tex q e.currentDepth) := by
  obtain ⟨hp, hb⟩ := hinv
  have hd := addQuad_depth e tex q e.currentDepth
  constructor
  · rw [hd.2, List.pairwise_append]
    refine ⟨hp, List.pairwise_singleton _ _, ?_⟩
    intro a ha b hbm
    rw [List.mem_singleton] at hbm
    exact hbm ▸ hb a ha
  · rw [hd.1, hd.2]
    intro d hdm
    rcases List.mem_append.mp hdm with hin | hone
    · exact lt_trans (hb d hin) (by linarith)
    · rw [List.mem_singleton] at hone
      rw [hone]
      linarith

/-- Every operation preserves the depth invariant (`begin` resets the
frame-scoped log together with the cursor). -/
theorem step_depthInv (e : Engine) (c : Cmd) (hinv : DepthInv e) :
    DepthInv (e.step c) := by
  by_cases hvd : c.isValidDraw = true
  · obtain ⟨tex, q, hq⟩ := step_of_valid_draw e c hvd
    rw [hq]
    exact addQuad_depthInv e tex q hinv
  · cases c with
    | begin v w hh =>
        simp only [Engine.step, Engine.begin]
        split
        · exact depthInv_congr rfl rfl hinv
        · exact ⟨List.Pairwise.nil, by simp⟩
    | draw t x y col =>
        have hv' : t.isValid = false := by
          simpa [Cmd.isValidDraw] using hvd
        have hstep : e.step (Cmd.draw t x y col) = e := by
          simp [Engine.step, Engine.draw, hv']
        rw [hstep]; exact hinv
    | drawSized t x y w hh col =>
        have hv' : t.isValid = false := by
          simpa [Cmd.isValidDraw] using hvd
        have hstep : e.step (Cmd.drawSized t x y w hh col) = e := by
          simp [Engine.step, Engine.drawSized, hv']
        rw [hstep]; exact hinv
    | drawRotated t x y w hh cr sr ox oy col =>
        have hv' : t.isValid = false := by
          simpa [Cmd.isValidDraw] using hvd
        have hstep : e.step (Cmd.drawRotated t x y w hh cr sr ox oy col)
            = e := by
          simp [Engine.step, Engine.drawRotated, hv']
        rw [hstep]; exact hinv
    | drawRegion t x y dw dh src col =>
        have hv' : t.isValid = false := by
          simpa [Cmd.isValidDraw] using hvd
        have hstep : e.step (Cmd.drawRegion t x y dw dh src col) = e := by
          simp [Engine.step, Engine.drawRegion, hv']
        rw [hstep]; exact hinv
    | drawRegionXY t x y src col =>
        have hv' : t.isValid = false := by
          simpa [Cmd.isValidDraw] using hvd
        have hstep : e.step (Cmd.drawRegionXY t x y src col) = e := by
          simp [Engine.step, Engine.drawRegionXY, hv']
        rw [hstep]; exact hinv
    | endFrame =>
        simp only [Engine.step, Engine.endFrame]
        split
        · exact depthInv_congr rfl rfl hinv
        · exact depthInv_congr (flush_keeps_fields e).2.2.2.1
            (flush_keeps_fields e).2.2.1 hinv

/-- C3: starting from any state satisfying the depth invariant (in
particular the state right after `begin`, whose log is empty and whose
cursor is 0), every operation sequence keeps the logged depths of the
enqueued quads strictly increasing in call order — hence no two quads of
a frame share a depth.  (`begin` resets the frame-scoped log, so the log
always spans exactly the current frame; embedding note: the `+= 0.001f`
float increment is modelled as exact `+ 1/1000`.) -/
theorem c3_depths_strictly_increasing (e : Engine) (cs : List Cmd)
    (h1 : e.depthLog.Pairwise (· < ·))
    (h2 : ∀ d ∈ e.depthLog, d < e.currentDepth) :
    ((e.run cs).depthLog).Pairwise (· < ·) ∧
    ((e.run cs).depthLog).Pairwise (· ≠ ·) := by
  have hrun : DepthInv (e.run cs) := by
    induction cs generalizing e with
    | nil => exact ⟨h1, h2⟩
    | cons c rest ih =>
        have hstep := step_depthInv e c ⟨h1, h2⟩
        exact ih (e.step c) hstep.1 hstep.2
  exact ⟨hrun.1, hrun.1.imp ne_of_lt⟩

/-- Witness for C3: a two-draw frame logs depths `[0, 1/1000]`, which
are strictly increasing and distinct. -/
theorem c3_depths_strictly_increasing_witness :
    ((openEngine.run [Cmd.drawSized texX 0 0 1 1 Color.white,
        Cmd.drawSized texY 0 0 1 1 Color.white]).depthLog).Pairwise
          (· < ·) ∧
    ((openEngine.run [Cmd.drawSized texX 0 0 1 1 Color.white,
        Cmd.drawSized texY 0 0 1 1 Color.white]).depthLog).Pairwise
          (· ≠ ·) :=
  c3_depths_strictly_increasing openEngine
    [Cmd.drawSized texX 0 0 1 1 Color.white,
     Cmd.drawSized texY 0 0 1 1 Color.white]
    (by simp [openEngine, closedEngine, initEngine, Engine.begin])
    (by simp [openEngine, closedEngine, initEngine, Engine.begin])

/-- Accounting effect of one `addQuad`: the total of flushed-out sprites
(`spriteCount`) plus queued sprites grows by exactly one, and the
implicit-flush counter grows exactly when the queue was at capacity. -/
theorem addQuad_accounting (e : Engine) (tex : BgfxTexture) (q : Quad ℚ)
    (d : ℚ) :
    (e.addQuad tex q d).stats.spriteCount
        + (e.addQuad tex q d).sprites.length
      = e.stats.spriteCount + e.sprites.length + 1 ∧
    (e.addQuad tex q d).implicitFlushes
      = (if e.maxSprites ≤ e.sprites.length then e.implicitFlushes + 1
         else e.implicitFlushes) := by
  unfold Engine.addQuad
  split
  · constructor
    · simp [flush_spriteCount, flush_sprites_nil]
    · simp [(flush_keeps_fields e).2.2.2.2]
  · constructor
    · simp; omega
    · simp

/-- One valid draw advances the frame accounting from `k` to `k + 1`. -/
theorem step_frameAcct (M k : ℕ) (hM : 1 ≤ M) (e : Engine) (c : Cmd)
    (hc : c.isValidDraw = true) (h : FrameAcct e M k) :
    FrameAcct (e.step c) M (k + 1) ∧ (e.step c).begun = e.begun := by
  obtain ⟨tex, q, hq⟩ := step_of_valid_draw e c hc
  rw [hq]
  obtain ⟨hmax, hsum, h0, h1⟩ := h
  have hacc := addQuad_accounting e tex q e.currentDepth
  have hkeep := addQuad_keeps e tex q e.currentDepth
  have hlen := addQuad_length e tex q e.currentDepth
  refine ⟨⟨hkeep.2.trans hmax, by omega, by omega, ?_⟩, hkeep.1⟩
  intro _
  rcases Nat.eq_zero_or_pos k with hk0 | hk1
  · obtain ⟨hl0, hi0⟩ := h0 hk0
    have hcond : ¬ (e.maxSprites ≤ e.sprites.length) := by omega
    refine ⟨0, 1, by omega, le_refl 1, hM, ?_, ?_⟩
    · rw [hlen, if_neg hcond]; omega
    · rw [hacc.2, if_neg hcond]; omega
  · obtain ⟨qq, r, hkeq, hr1, hrM, hlr, hiq⟩ := h1 hk1
    rcases Nat.lt_or_ge r M with hrlt | hrge
    · have hcond : ¬ (e.maxSprites ≤ e.sprites.length) := by omega
      refine ⟨qq, r + 1, ?_, by omega, by omega, ?_, ?_⟩
      · omega
      · rw [hlen, if_neg hcond]; omega
      · rw [hacc.2, if_neg hcond]; omega
    · have hrMeq : r = M := le_antisymm hrM hrge
      have hcond : e.maxSprites ≤ e.sprites.length := by omega
      refine ⟨qq + 1, 1, ?_, le_refl 1, hM, ?_, ?_⟩
      · rw [Nat.succ_mul]
        omega
      · rw [hlen, if_pos hcond]
      · rw [hacc.2, if_pos hcond]; omega

/-- Running a list of valid draws advances the frame accounting by its
length. -/
theorem run_frameAcct (M : ℕ) (hM : 1 ≤ M) (cs : List Cmd)
    (hcs : ∀ c ∈ cs, c.isValidDraw = true) :
    ∀ (e : Engine) (k : ℕ), FrameAcct e M k →
      FrameAcct (e.run cs) M (k + cs.length) ∧
      (e.run cs).begun = e.begun := by
  induction cs with
  | nil => exact fun e k h => ⟨by simpa using h, rfl⟩
  | cons c rest ih =>
      intro e k h
      have hc : c.isValidDraw = true := hcs c (List.mem_cons_self c rest)
      have hrest : ∀ c' ∈ rest, c'.isValidDraw = true :=
        fun c' hc' => hcs c' (List.mem_cons_of_mem c hc')
      have hstep := step_frameAcct M k hM e c hc h
      have hrun := ih hrest (e.step c) (k + 1) hstep.1
      refine ⟨?_, hrun.2.trans hstep.2⟩
      have : k + 1 + rest.length = k + (c :: rest).length := by
        simp [List.length_cons]; omega
      rw [← this]
      exact hrun.1

/-- C9: in a frame that issues `N` valid draw calls on a batch of
capacity `M ≥ 1`, exactly one implicit flush happens per capacity
boundary crossed, i.e. `(N - 1) / M` of them (0 for `N ≤ M`, one more
for each further capacity multiple); the final `end()` still flushes the
remainder (the queue ends empty); and the total frame sprite count
across all submissions equals `N`, the number of valid draw calls
issued. -/
theorem c9_capacity_flush_accounting (e : Engine) (cs : List Cmd)
    (hM : 1 ≤ e.maxSprites) (hb : e.begun = true)
    (hcs : ∀ c ∈ cs, c.isValidDraw = true)
    (hq : e.sprites = []) (hsc : e.stats.spriteCount = 0)
    (hif : e.implicitFlushes = 0) :
    (e.run (cs ++ [Cmd.endFrame])).implicitFlushes
        = (cs.length - 1) / e.maxSprites ∧
    (e.run (cs ++ [Cmd.endFrame])).stats.spriteCount = cs.length ∧
    (e.run (cs ++ [Cmd.endFrame])).sprites = [] := by
  have hsplit : e.run (cs ++ [Cmd.endFrame]) = (e.run cs).endFrame := by
    simp [Engine.run, List.foldl_append, Engine.step]
  have hstart : FrameAcct e e.maxSprites 0 :=
    ⟨rfl, by simp [hq, hsc], fun _ => ⟨by simp [hq], hif⟩, by omega⟩
  obtain ⟨⟨hmax, hsum, h0, h1⟩, hbeg⟩ :=
    run_frameAcct e.maxSprites hM cs hcs e 0 hstart
  set f := e.run cs with hf
  have hfb : f.begun = true := hbeg.trans hb
  have hend : f.endFrame = { f.flush with begun := false } := by
    simp [Engine.endFrame, hfb]
  rw [hsplit, hend]
  have hkf := flush_keeps_fields f
  refine ⟨?_, ?_, ?_⟩
  · show f.flush.implicitFlushes = (cs.length - 1) / e.maxSprites
    rw [hkf.2.2.2.2]
    rcases Nat.eq_zero_or_pos cs.length with hk0 | hk1
    · obtain ⟨-, hi0⟩ := h0 (by omega)
      rw [hi0, hk0]
      simp
    · obtain ⟨qq, r, hkeq, hr1, hrM, hlr, hiq⟩ := h1 (by omega)
      rw [hiq]
      have hdecomp : cs.length - 1 = (r - 1) + e.maxSprites * qq := by
        have := Nat.mul_comm qq e.maxSprites
        omega
      rw [hdecomp, Nat.add_mul_div_left _ _ (by omega : 0 < e.maxSprites),
        Nat.div_eq_of_lt (by omega : r - 1 < e.maxSprites)]
      omega
  · show f.flush.stats.spriteCount = cs.length
    rw [flush_spriteCount]
    omega
  · show f.flush.sprites = []
    exact flush_sprites_nil f

/-- Witness for C9: capacity 2, five draws — two implicit flushes
(`(5-1)/2`), five sprites counted, empty queue after `end`. -/
theorem c9_capacity_flush_accounting_witness :
    ((((initEngine 2 1000).begin 0 640 360).run
        (List.replicate 5 (Cmd.drawSized texX 0 0 1 1 Color.white)
          ++ [Cmd.endFrame])).implicitFlushes
      = ((List.replicate 5 (Cmd.drawSized texX 0 0 1 1
          Color.white)).length - 1)
        / ((initEngine 2 1000).begin 0 640 360).maxSprites) ∧
    ((((initEngine 2 1000).begin 0 640 360).run
        (List.replicate 5 (Cmd.drawSized texX 0 0 1 1 Color.white)
          ++ [Cmd.endFrame])).stats.spriteCount
      = (List.replicate 5 (Cmd.drawSized texX 0 0 1 1
          Color.white)).length) ∧
    ((((initEngine 2 1000).begin 0 640 360).run
        (List.replicate 5 (Cmd.drawSized texX 0 0 1 1 Color.white)
          ++ [Cmd.endFrame])).sprites = []) :=
  c9_capacity_flush_accounting ((initEngine 2 1000).begin 0 640 360)
    (List.replicate 5 (Cmd.drawSized texX 0 0 1 1 Color.white))
    (by decide) rfl
    (by intro c hc
        simp only [List.mem_replicate] at hc
        rw [hc.2]
        rfl)
    rfl rfl rfl

/-- The `submitBatch` helper does nothing on an empty accumulation buffer. -/
theorem submitBatch_of_empty (s : FlushState) (h : s.batchVerts = []) :
    submitBatch s = s := by
  unfold submitBatch
  rw [if_pos]
  simp [h]

/-- The `submitBatch` helper with a nonempty buffer, a valid cursor, and room in
the transient pool performs exactly one submission. -/
theorem submitBatch_of_fits (s : FlushState) (hne : s.batchVerts ≠ [])
    (hval : bgfxIsValid s.currentTexture = true)
    (hfit : s.batchVerts.length ≤ s.pool) :
    submitBatch s
      = { s with
          pool := s.pool - s.batchVerts.length
          submissions :=
            s.submissions ++ [⟨s.currentTexture, s.batchVerts⟩]
          stats := { s.stats with drawCalls := s.stats.drawCalls + 1 }
          batchVerts := [] } := by
  unfold submitBatch
  rw [if_neg, if_neg (Nat.not_lt.mpr hfit)]
  simp [List.isEmpty_iff, hne, hval]

/-- After a walk step on a sprite with a valid texture, the cursor is
valid. -/
theorem flushStep_cursor_valid (s : FlushState) (i : SpriteItem)
    (h : bgfxIsValid i.texture = true) :
    bgfxIsValid (flushStep s i).currentTexture = true := by
  unfold flushStep
  split
  · simpa using h
  · next hno =>
      have hidx : i.texture.idx = s.currentTexture.idx := not_ne_iff.mp hno
      simp only [bgfxIsValid, ← hidx]
      simpa [bgfxIsValid] using h

/-- One walk step, when the pending buffer fits in the pool, moves the
six triangle vertices of the walked quad into the pending stream (either by
submitting the old batch first, on a texture switch, or by appending),
and preserves the pool budget. -/
theorem flushStep_stream (s : FlushState) (i : SpriteItem)
    (hcur : s.batchVerts ≠ [] → bgfxIsValid s.currentTexture = true)
    (hfit : s.batchVerts.length ≤ s.pool) :
    (submissionStream (flushStep s i).submissions
        ++ (flushStep s i).batchVerts
      = submissionStream s.submissions ++ s.batchVerts
        ++ quadTriangles i.vertices) ∧
    (∀ X : ℕ, s.batchVerts.length + 6 + X ≤ s.pool →
      (flushStep s i).batchVerts.length + X ≤ (flushStep s i).pool) := by
  by_cases htex : i.texture.idx ≠ s.currentTexture.idx
  · by_cases hemp : s.batchVerts = []
    · have hs' : flushStep s i
          = { s with
              currentTexture := i.texture
              batchVerts := s.batchVerts ++ quadTriangles i.vertices
              stats := { s.stats with
                textureSwaps := s.stats.textureSwaps + 1
                spriteCount := s.stats.spriteCount + 1 } } := by
        unfold flushStep
        rw [if_pos htex, submitBatch_of_empty s hemp]
      rw [hs']
      refine ⟨by simp, ?_⟩
      intro X hX
      simp only [List.length_append, hemp]
      simp only [hemp, List.length_nil] at hX
      simpa [quadTriangles] using hX
    · have hval := hcur hemp
      have hs' : flushStep s i
          = { s with
              currentTexture := i.texture
              pool := s.pool - s.batchVerts.length
              submissions :=
                s.submissions ++ [⟨s.currentTexture, s.batchVerts⟩]
              batchVerts := quadTriangles i.vertices
              stats := { s.stats with
                drawCalls := s.stats.drawCalls + 1
                textureSwaps := s.stats.textureSwaps + 1
                spriteCount := s.stats.spriteCount + 1 } } := by
        unfold flushStep
        rw [if_pos htex, submitBatch_of_fits s hemp hval hfit]
        rfl
      rw [hs']
      constructor
      · simp [submissionStream]
      · intro X hX
        simp only [quadTriangles, List.length_cons, List.length_nil]
        omega
  · have hs' : flushStep s i
        = { s with
            batchVerts := s.batchVerts ++ quadTriangles i.vertices
            stats := { s.stats with
              spriteCount := s.stats.spriteCount + 1 } } := by
      unfold flushStep
      rw [if_neg htex]
    rw [hs']
    refine ⟨by simp, ?_⟩
    intro X hX
    simp only [List.length_append, quadTriangles, List.length_cons,
      List.length_nil]
    omega

/-- The flush walk over a sprite list, when every texture is valid and
the pool can hold the whole stream, submits exactly the pending buffer
followed by the triangles of the sprites, in list order. -/
theorem flushFold_stream (items : List SpriteItem) :
    ∀ s : FlushState,
      (∀ i ∈ items, bgfxIsValid i.texture = true) →
      (s.batchVerts ≠ [] → bgfxIsValid s.currentTexture = true) →
      s.batchVerts.length + 6 * items.length ≤ s.pool →
      submissionStream (submitBatch (items.foldl flushStep s)).submissions
        = submissionStream s.submissions ++ s.batchVerts
            ++ triangleStream items := by
  induction items with
  | nil =>
      intro s hv hcur hpool
      rw [List.foldl_nil]
      by_cases hemp : s.batchVerts = []
      · rw [submitBatch_of_empty s hemp, hemp]
        simp [triangleStream]
      · rw [submitBatch_of_fits s hemp (hcur hemp) (by simpa using hpool)]
        simp [submissionStream, triangleStream]
  | cons i rest ih =>
      intro s hv hcur hpool
      have hvi : bgfxIsValid i.texture = true :=
        hv i (List.mem_cons_self i rest)
      have hvrest : ∀ j ∈ rest, bgfxIsValid j.texture = true :=
        fun j hj => hv j (List.mem_cons_of_mem i hj)
      have hfit : s.batchVerts.length ≤ s.pool := by
        have := hpool
        simp only [List.length_cons] at this
        omega
      obtain ⟨hstream, hbudget⟩ := flushStep_stream s i hcur hfit
      have hpool' : (flushStep s i).batchVerts.length + 6 * rest.length
          ≤ (flushStep s i).pool := by
        apply hbudget
        simp only [List.length_cons] at hpool
        omega
      rw [List.foldl_cons,
        ih (flushStep s i) hvrest
          (fun _ => flushStep_cursor_valid s i hvi) hpool']
      rw [hstream]
      simp [triangleStream, List.append_assoc]

/-- C1: for a frame whose queued quads carry strictly increasing depths
in call order (which `addQuad` guarantees, claim C3) and valid textures,
and whose accumulated geometry fits the transient pool, the flush
performed by `end()` stable-sorts by depth only — which reorders
nothing — and the stream of submitted triangles, concatenated across
submissions in submission order, is exactly the triangles of the
queued quads
in original call order: no reordering of visual layering, and no
reordering by image. -/
theorem c1_flush_preserves_call_order (e : Engine) (hb : e.begun = true)
    (hsorted : e.sprites.Pairwise (fun a b => a.depth < b.depth))
    (hvalid : ∀ i ∈ e.sprites, bgfxIsValid i.texture = true)
    (hpool : 6 * e.sprites.length ≤ e.pool) :
    sortByDepth e.sprites = e.sprites ∧
    submissionStream e.endFrame.submissions
      = submissionStream e.submissions ++ triangleStream e.sprites := by
  have hsort : sortByDepth e.sprites = e.sprites := by
    apply List.Sorted.insertionSort_eq
    exact hsorted.imp le_of_lt
  refine ⟨hsort, ?_⟩
  have hend : e.endFrame = { e.flush with begun := false } := by
    simp [Engine.endFrame, hb]
  rw [hend]
  show submissionStream e.flush.submissions
      = submissionStream e.submissions ++ triangleStream e.sprites
  unfold Engine.flush
  split
  · next hemp =>
      have : e.sprites = [] := by simpa [List.isEmpty_iff] using hemp
      simp [this, submissionStream, triangleStream]
  · rw [hsort]
    have hmain := flushFold_stream e.sprites
      { currentTexture := invalidTexture, batchVerts := [], pool := e.pool
        stats := e.stats, submissions := e.submissions
        stderrReports := e.stderrReports }
      hvalid (fun hne => absurd rfl hne) (by simpa using hpool)
    simpa using hmain

/-- Witness for C1: a begun batch with two queued quads (depths `0` and
`1/1000`, distinct valid textures) submits their triangles in call
order. -/
theorem c1_flush_preserves_call_order_witness :
    sortByDepth twoQuadEngine.sprites = twoQuadEngine.sprites ∧
    submissionStream twoQuadEngine.endFrame.submissions
      = submissionStream twoQuadEngine.submissions
          ++ triangleStream twoQuadEngine.sprites :=
  c1_flush_preserves_call_order twoQuadEngine rfl
    (of_decide_eq_true (by with_unfolding_all rfl))
    (of_decide_eq_true (by with_unfolding_all rfl))
    (of_decide_eq_true (by with_unfolding_all rfl))

/-- When the pending buffer exceeds the remaining transient pool,
`submitBatch` changes none of the pool, the buffer, the submission list,
or the draw-call counter (whether it reports or skips early on an
invalid cursor). -/
theorem submitBatch_overflow_fields (s : FlushState)
    (h : s.pool < s.batchVerts.length) :
    (submitBatch s).pool = s.pool ∧
    (submitBatch s).batchVerts = s.batchVerts ∧
    (submitBatch s).submissions = s.submissions ∧
    (submitBatch s).stats.drawCalls = s.stats.drawCalls := by
  unfold submitBatch
  split
  · exact ⟨rfl, rfl, rfl, rfl⟩
  · exact ⟨rfl, rfl, rfl, rfl⟩

/-- A walk step from an overflowed state keeps the pool, only grows the
buffer, and performs no submission. -/
theorem flushStep_overflow (s : FlushState) (i : SpriteItem)
    (h : s.pool < s.batchVerts.length) :
    (flushStep s i).pool = s.pool ∧
    s.batchVerts.length ≤ (flushStep s i).batchVerts.length ∧
    (flushStep s i).submissions = s.submissions ∧
    (flushStep s i).stats.drawCalls = s.stats.drawCalls := by
  obtain ⟨hp, hb, hs, hd⟩ := submitBatch_overflow_fields s h
  unfold flushStep
  split
  · simp [hp, hb, hs, hd]
  · simp

/-- Once a flush state has overflowed, the remainder of the walk never
submits: pool constant, buffer only growing, submissions and draw-call
counter untouched. -/
theorem flushFold_stuck (rest : List SpriteItem) :
    ∀ s : FlushState, s.pool < s.batchVerts.length →
      (rest.foldl flushStep s).pool = s.pool ∧
      s.batchVerts.length ≤ (rest.foldl flushStep s).batchVerts.length ∧
      (rest.foldl flushStep s).submissions = s.submissions ∧
      (rest.foldl flushStep s).stats.drawCalls = s.stats.drawCalls := by
  induction rest with
  | nil => exact fun s _ => ⟨rfl, le_refl _, rfl, rfl⟩
  | cons i tail ih =>
      intro s h
      obtain ⟨hp, hl, hs, hd⟩ := flushStep_overflow s i h
      have hrec := ih (flushStep s i) (by omega)
      rw [List.foldl_cons]
      exact ⟨hrec.1.trans hp, le_trans hl hrec.2.1,
        hrec.2.2.1.trans hs, hrec.2.2.2.trans hd⟩

/-- C6: when the transient pool cannot supply the vertices accumulated
for a submission, that submission is skipped and reported (one stderr
line; submissions, draw-call counter, pool, and — notably — the buffer
are unchanged), it is never retried successfully, and its geometry
appears in no later submission of the same flush: from the moment of
overflow, the rest of the walk and the final `submitBatch` issue no
submission and increment no draw-call counter, while the walk itself
(and hence the frame) continues. -/
theorem c6_transient_exhaustion (s : FlushState) (rest : List SpriteItem)
    (hval : bgfxIsValid s.currentTexture = true)
    (hover : s.pool < s.batchVerts.length) :
    submitBatch s = { s with stderrReports := s.stderrReports + 1 } ∧
    (submitBatch (rest.foldl flushStep s)).submissions = s.submissions ∧
    (submitBatch (rest.foldl flushStep s)).stats.drawCalls
      = s.stats.drawCalls := by
  have hne : s.batchVerts ≠ [] := by
    intro hh
    rw [hh] at hover
    simp at hover
  have hstuck := flushFold_stuck rest s hover
  have hfin : (rest.foldl flushStep s).pool
      < (rest.foldl flushStep s).batchVerts.length := by omega
  have hfinal := submitBatch_overflow_fields _ hfin
  refine ⟨?_, hfinal.2.2.1.trans hstuck.2.2.1,
    hfinal.2.2.2.trans hstuck.2.2.2⟩
  unfold submitBatch
  rw [if_neg (by simp [List.isEmpty_iff, hne, hval]), if_pos hover]

/-- Witness for C6: from the starved state, the attempt reports and
changes nothing else, and walking one more sprite still yields no
submission and no draw call. -/
theorem c6_transient_exhaustion_witness :
    submitBatch starvedFlushState
      = { starvedFlushState with
          stderrReports := starvedFlushState.stderrReports + 1 } ∧
    (submitBatch ([lateSprite].foldl flushStep
        starvedFlushState)).submissions = starvedFlushState.submissions ∧
    (submitBatch ([lateSprite].foldl flushStep
        starvedFlushState)).stats.drawCalls
      = starvedFlushState.stats.drawCalls :=
  c6_transient_exhaustion starvedFlushState [lateSprite] rfl
    (of_decide_eq_true (by with_unfolding_all rfl))
